import Mathlib

set_option maxRecDepth 8000

/-!
Verification of the core data pipeline of the Zomato Streamlit dashboard
(`zomato_streamlit_Dashboard.py`): the `load_and_clean` normalizer, the
sidebar filter chain, and the aggregate views (boolean-combination counts,
correlation matrix over {rate, votes, cost_for_two}).

The embedding works over a fixed schema in which all canonical columns
(`name`, `rate`, `votes`, `cost_for_two`, `online_order`, `book_table`,
`restaurant_type`) are present, so the `if col in df.columns` guards of the
script are all taken and the header-alias renaming is the identity.
A raw cell is a string; a missing CSV cell appears as the string "nan",
matching pandas `astype(str)` applied to NaN.  Numeric values are modelled
as rationals (`ℚ`); a pandas NaN produced by a failed parse is modelled as
`Option.none`.
-/

namespace Zomato

/-- Python `str.strip()` on the character list of a string: drop whitespace
from both ends. -/
def trimChars (cs : List Char) : List Char :=
  ((cs.dropWhile Char.isWhitespace).reverse.dropWhile Char.isWhitespace).reverse

/-- Value of a list of decimal digit characters, most significant first. -/
def digitsToNat (ds : List Char) : Nat :=
  ds.foldl (fun n c => 10 * n + (c.toNat - 48)) 0

/-- Parse a non-empty all-digit suffix as a natural number (as `Int`). -/
def parseNatTail (cs : List Char) : Option Int :=
  if cs ≠ [] ∧ cs.all Char.isDigit then some (digitsToNat cs) else none

/-- Parse an optionally signed all-digit suffix. -/
def parseSignedNatTail (cs : List Char) : Option Int :=
  match cs with
  | '+' :: r => parseNatTail r
  | '-' :: r => (parseNatTail r).map (fun n => -n)
  | r => parseNatTail r

/-- Parse the exponent part of a float literal: empty means exponent 0,
otherwise `e`/`E` followed by an optionally signed digit run. -/
def parseExpTail (cs : List Char) : Option Int :=
  match cs with
  | [] => some 0
  | 'e' :: r => parseSignedNatTail r
  | 'E' :: r => parseSignedNatTail r
  | _ => none

/-- Scale a mantissa by a signed power of ten. -/
def applyExp (m : ℚ) (e : Int) : ℚ :=
  if 0 ≤ e then m * (10 : ℚ) ^ e.toNat else m / (10 : ℚ) ^ (-e).toNat

/-- Parse an unsigned float literal `digits [. digits] [exponent]`,
requiring at least one mantissa digit. -/
def parseUnsigned (cs : List Char) : Option ℚ :=
  let ip := cs.takeWhile Char.isDigit
  let r1 := cs.dropWhile Char.isDigit
  match r1 with
  | '.' :: r2 =>
    let fp := r2.takeWhile Char.isDigit
    let r3 := r2.dropWhile Char.isDigit
    if ip = [] ∧ fp = [] then none
    else
      match parseExpTail r3 with
      | none => none
      | some e =>
          some (applyExp ((digitsToNat ip : ℚ) + (digitsToNat fp : ℚ) / (10 : ℚ) ^ fp.length) e)
  | _ =>
    if ip = [] then none
    else
      match parseExpTail r1 with
      | none => none
      | some e => some (applyExp (digitsToNat ip : ℚ) e)

/-- Model of `pd.to_numeric(·, errors='coerce')` on a string cell: whitespace
is trimmed, an optional sign is followed by a decimal literal with optional
fraction and exponent; anything else coerces to NaN (`none`).  (Infinities
and the textual NaN forms, which cannot be represented in `ℚ`, are likewise
`none`; no input in this development uses them.) -/
def parseFloatQ (s : String) : Option ℚ :=
  match trimChars s.data with
  | '-' :: r => (parseUnsigned r).map Neg.neg
  | '+' :: r => parseUnsigned r
  | cs => parseUnsigned cs

/-- Model of `str.replace('/5', '')`: delete every (left-to-right,
non-overlapping) occurrence of the two-character substring "/5". -/
def removeSlash5 : List Char → List Char
  | [] => []
  | '/' :: '5' :: rest => removeSlash5 rest
  | c :: rest => c :: removeSlash5 rest

/-- The literal cell values replaced by NaN in the `rate` column
(source line 43). -/
def sentinels : List String := ["-", "nan", "NONE", "None", "NEW"]

/-- Source line 43-44: strip "/5", map the sentinel strings to NaN, then
`pd.to_numeric(errors='coerce')`. -/
def cleanRate (s : String) : Option ℚ :=
  let s1 : String := ⟨removeSlash5 s.data⟩
  if s1 ∈ sentinels then none else parseFloatQ s1

/-- C-style truncation toward zero, as in numpy `astype(int)`. -/
def ratTrunc (q : ℚ) : Int := if 0 ≤ q then ⌊q⌋ else ⌈q⌉

/-- Source line 52: `pd.to_numeric(errors='coerce').fillna(0).astype(int)`. -/
def cleanVotes (s : String) : Int :=
  match parseFloatQ s with
  | none => 0
  | some q => ratTrunc q

/-- First maximal digit run of a character list, as `str.extract(r'(\d+)')`
finds it, or `none` when the list has no digit. -/
def firstDigitRun : List Char → Option (List Char)
  | [] => none
  | c :: rest =>
      if c.isDigit then some (c :: rest.takeWhile Char.isDigit)
      else firstDigitRun rest

/-- Source line 48: remove commas, extract the first digit run, convert to
float; no digit run yields NaN (`none`). -/
def cleanCost (s : String) : Option ℚ :=
  (firstDigitRun ((s.data).filter (fun c => c ≠ ','))).map (fun ds => (digitsToNat ds : ℚ))

/-- Source line 57: `str.strip()` then `.replace({'Yes':'Yes','No':'No',
'yes':'Yes','no':'No','0':'No','1':'Yes'})` — an exact-match alias table;
any other value is preserved verbatim. -/
def cleanYesNo (s : String) : String :=
  let t : String := ⟨trimChars s.data⟩
  if t = "yes" then "Yes"
  else if t = "no" then "No"
  else if t = "0" then "No"
  else if t = "1" then "Yes"
  else t

/-- One raw CSV row (all cells as text, canonical column names). -/
structure RawRow where
  name : String
  rate : String
  votes : String
  cost_for_two : String
  online_order : String
  book_table : String
  restaurant_type : String
deriving DecidableEq

/-- One normalized row, as produced by `load_and_clean`. -/
structure Row where
  name : String
  rate : Option ℚ
  votes : Int
  cost_for_two : Option ℚ
  online_order : String
  book_table : String
  restaurant_type : String
deriving DecidableEq

/-- The per-row effect of the column transformations of
`load_and_clean` (source lines 40-61). -/
def cleanRow (r : RawRow) : Row :=
  { name := r.name
    rate := cleanRate r.rate
    votes := cleanVotes r.votes
    cost_for_two := cleanCost r.cost_for_two
    online_order := cleanYesNo r.online_order
    book_table := cleanYesNo r.book_table
    restaurant_type := r.restaurant_type }

/-- Function `load_and_clean` (source lines 28-63): every column transformation is
elementwise and no row is ever removed or reordered, so the whole cleaning
step is the row-wise map of `cleanRow`. -/
def load_and_clean (rows : List RawRow) : List Row :=
  rows.map cleanRow

/-- The sidebar selection (source lines 74-83): one selectbox value per
categorical dimension ('All' or a concrete value) and the two ends of the
rating slider. -/
structure FilterSpec where
  online : String
  book : String
  rtype : String
  lo : ℚ
  hi : ℚ

/-- Source line 93: `(df['rate'] >= lo) & (df['rate'] <= hi)`; a NaN rating
compares false on both sides. -/
def ratePassB (r : Row) (lo hi : ℚ) : Bool :=
  match r.rate with
  | some q => decide (lo ≤ q) && decide (q ≤ hi)
  | none => false

/-- The filter chain of source lines 86-93: each categorical filter is
skipped when its selectbox reads 'All'; the rating-range filter is applied
unconditionally at the end. -/
def applyFilter (t : List Row) (s : FilterSpec) : List Row :=
  let t1 := if s.online = "All" then t else t.filter (fun r => r.online_order == s.online)
  let t2 := if s.book = "All" then t1 else t1.filter (fun r => r.book_table == s.book)
  let t3 := if s.rtype = "All" then t2 else t2.filter (fun r => r.restaurant_type == s.rtype)
  t3.filter (fun r => ratePassB r s.lo s.hi)

/-- The non-NaN entries of the `rate` column, in row order
(`data['rate'].dropna()`). -/
def presentRates (t : List Row) : List ℚ :=
  t.filterMap (fun r => r.rate)

/-- Source line 81: `data['rate'].min(skipna=True)`, with fallback `0.0`
when no rating is present. -/
def obsMinRate (t : List Row) : ℚ :=
  match presentRates t with
  | [] => 0
  | x :: xs => xs.foldr min x

/-- Source line 82: `data['rate'].max(skipna=True)`, with fallback `5.0`
when no rating is present. -/
def obsMaxRate (t : List Row) : ℚ :=
  match presentRates t with
  | [] => 5
  | x :: xs => xs.foldr max x

/-- The all-dimensions-unset selection: every selectbox still reads 'All'
and the slider holds its default value, the observed min/max of the
rating column (source lines 74-83). -/
def fullSpec (t : List Row) : FilterSpec :=
  ⟨"All", "All", "All", obsMinRate t, obsMaxRate t⟩

/-- Row predicate of source lines 116 and 209:
`(online_order == 'Yes') & (book_table == 'Yes')`. -/
def bothPred (r : Row) : Bool :=
  r.online_order == "Yes" && r.book_table == "Yes"

/-- Source line 209: `both_df = data[(data['online_order'] == 'Yes') &
(data['book_table'] == 'Yes')]`.  Note the script passes `data`, the full
normalized table, here — not `df_filtered`. -/
def both_df (t : List Row) : List Row :=
  t.filter bothPred

/-- Source line 210: the displayed total is the row count of `both_df`. -/
def bothCount (t : List Row) : Nat :=
  (both_df t).length

/-- The complement count of the boolean combination: rows that do not have
both flags equal to "Yes". -/
def otherCount (t : List Row) : Nat :=
  (t.filter (fun r => !(bothPred r))).length

/-- The three numeric columns of the correlation heatmap
(source line 170: `corr_cols = ['rate', 'votes', 'cost_for_two']`). -/
inductive Fld
  | rating
  | votes
  | cost
deriving DecidableEq

/-- Field projection used by the correlation matrix; `votes` is always
present, `rate` and `cost_for_two` may be NaN. -/
def fval : Fld → Row → Option ℚ
  | Fld.rating, r => r.rate
  | Fld.votes, r => some (r.votes : ℚ)
  | Fld.cost, r => r.cost_for_two

/-- The pairwise-complete observations for one cell of `corr_data.corr()`:
rows where both columns are non-NaN, in row order (pandas computes each
cell of the Pearson matrix over exactly these pairs). -/
def pairs (t : List Row) (f g : Fld) : List (ℚ × ℚ) :=
  t.filterMap (fun r =>
    match fval f r, fval g r with
    | some x, some y => some (x, y)
    | _, _ => none)

/-- Scaled covariance `n·Σxy − Σx·Σy`: the Pearson covariance numerator
multiplied by `n²`. -/
def covN (l : List (ℚ × ℚ)) : ℚ :=
  (l.length : ℚ) * (l.map (fun p => p.1 * p.2)).sum
    - (l.map Prod.fst).sum * (l.map Prod.snd).sum

/-- Scaled variance `n·Σx² − (Σx)²`: the variance multiplied by `n²`. -/
def varQ (xs : List ℚ) : ℚ :=
  (xs.length : ℚ) * (xs.map (fun x => x * x)).sum - xs.sum * xs.sum

/-- One defined cell of the Pearson matrix, represented exactly: the cell's
real value is `num / Real.sqrt denSq`.  The scale factors `n²` cancel
between numerator and denominator, so this represents exactly the value
pandas computes. -/
structure CorrCell where
  num : ℚ
  denSq : ℚ
deriving DecidableEq

/-- One cell of `corr_data.corr()` (source lines 170-173): `none` models
the NaN pandas emits when there are fewer than two pairwise-complete rows
or one of the two columns has zero variance over them; otherwise the cell
is the exact Pearson value `covN / √(varQ·varQ)`. -/
def corrCell (t : List Row) (f g : Fld) : Option CorrCell :=
  if (pairs t f g).length < 2 ∨ varQ ((pairs t f g).map Prod.fst) = 0
      ∨ varQ ((pairs t f g).map Prod.snd) = 0 then none
  else some ⟨covN (pairs t f g),
             varQ ((pairs t f g).map Prod.fst) * varQ ((pairs t f g).map Prod.snd)⟩

/-- A defined correlation cell whose represented real value
`num / √denSq` equals `1.0`: positive numerator whose square is the
squared denominator. -/
def CorrCell.repOne (c : CorrCell) : Prop :=
  0 < c.num ∧ c.num * c.num = c.denSq

/-! ### Concrete tables used by counterexamples and witnesses -/

/-- The two raw rows of Scenario A of the specification. -/
def scenarioA : List RawRow :=
  [⟨"A", "4.1/5", "120", "800", "Yes", "Yes", "Cafe"⟩,
   ⟨"B", "NEW", "10", "200", "No", "No", "Cafe"⟩]

/-- A raw row whose rating text parses to a value above 5. -/
def rawHighRate : RawRow :=
  ⟨"R", "9.9", "5", "100", "Yes", "No", "Cafe"⟩

/-- A raw row with a Yes/No cell outside the alias table ("maybe") and an
upper-case variant ("YES") that the exact-match alias table misses. -/
def rawMaybe : RawRow :=
  ⟨"M", "4.0", "5", "100", "maybe", "YES", "Cafe"⟩

/-- A single raw row whose rating is the sentinel "NEW". -/
def rawNew : RawRow :=
  ⟨"B", "NEW", "10", "200", "No", "No", "Cafe"⟩

/-- The four-row sample table of source lines 229-237, in normalized form;
exactly row "A" has both service flags equal to "Yes". -/
def sample4 : List Row :=
  [⟨"A", some (21/5), 120, some 350, "Yes", "Yes", "Casual Dining"⟩,
   ⟨"B", some (7/2), 45, some 250, "No", "No", "Cafe"⟩,
   ⟨"C", some 4, 87, some 800, "Yes", "No", "Fine Dining"⟩,
   ⟨"D", some (14/5), 3, some 150, "No", "Yes", "Quick Bites"⟩]

/-- First row of the two-row witness table `tPair`. -/
def rowP : Row :=
  ⟨"P", some 1, 3, some 7, "Yes", "Yes", "Cafe"⟩

/-- Second row of the two-row witness table `tPair`. -/
def rowQ : Row :=
  ⟨"Q", some 2, 5, some 11, "No", "No", "Bar"⟩

/-- A two-row table with all three numeric columns present and of nonzero
variance. -/
def tPair : List Row :=
  [rowP, rowQ]

/-- A one-row table, as in Scenario D of the specification. -/
def tOne : List Row :=
  [⟨"S", some 4, 100, some 500, "Yes", "Yes", "Cafe"⟩]

/-- A two-row table where exactly the both-flags row has rating 4. -/
def tBoth : List Row :=
  [⟨"X", some 4, 10, some 100, "Yes", "Yes", "Cafe"⟩,
   ⟨"Y", some 3, 20, some 200, "No", "No", "Bar"⟩]

/-- A rating range that keeps only row "Y" of `tBoth`. -/
def specLow : FilterSpec :=
  ⟨"All", "All", "All", 0, 7/2⟩

/-- An all-'All' spec with the maximal slider range. -/
def specFull05 : FilterSpec :=
  ⟨"All", "All", "All", 0, 5⟩

/-! ### Helper lemmas about the filter chain -/

/-- The conjunction of the four filter predicates of source lines 86-93,
with a skipped ('All') dimension contributing `true`. -/
def specPred (s : FilterSpec) (r : Row) : Bool :=
  (s.online == "All" || r.online_order == s.online)
    && (s.book == "All" || r.book_table == s.book)
    && (s.rtype == "All" || r.restaurant_type == s.rtype)
    && ratePassB r s.lo s.hi

lemma applyFilter_eq_filter (t : List Row) (s : FilterSpec) :
    applyFilter t s = t.filter (specPred s) := by
  by_cases h1 : s.online = "All" <;> by_cases h2 : s.book = "All" <;>
    by_cases h3 : s.rtype = "All" <;>
      · simp only [applyFilter, h1, h2, h3, if_true, if_false, if_pos, if_neg,
          not_false_iff, List.filter_filter]
        refine List.filter_congr ?_
        intro r _
        simp [specPred, beq_eq_decide, h1, h2, h3, Bool.and_comm, Bool.and_left_comm,
          Bool.and_assoc]

lemma filter_idem {α : Type} (p : α → Bool) (l : List α) :
    (l.filter p).filter p = l.filter p :=
  List.filter_eq_self.mpr (fun _ ha => (List.mem_filter.mp ha).2)

lemma length_filter_split {α : Type} (p : α → Bool) (l : List α) :
    (l.filter p).length + (l.filter (fun a => !(p a))).length = l.length := by
  induction l with
  | nil => rfl
  | cons a l ih =>
      cases hpa : p a <;> simp [List.filter_cons, hpa] <;> omega

lemma foldr_min_le (x : ℚ) (xs : List ℚ) : ∀ q ∈ x :: xs, xs.foldr min x ≤ q := by
  induction xs generalizing x with
  | nil =>
      intro q hq
      simp only [List.mem_singleton] at hq
      simp [hq]
  | cons a ys ih =>
      intro q hq
      simp only [List.foldr_cons]
      rcases List.mem_cons.mp hq with rfl | h
      · exact le_trans (min_le_right _ _) (ih q q (List.mem_cons_self _ _))
      · rcases List.mem_cons.mp h with rfl | h2
        · exact min_le_left _ _
        · exact le_trans (min_le_right _ _) (ih x q (List.mem_cons_of_mem _ h2))

lemma le_foldr_max (x : ℚ) (xs : List ℚ) : ∀ q ∈ x :: xs, q ≤ xs.foldr max x := by
  induction xs generalizing x with
  | nil =>
      intro q hq
      simp only [List.mem_singleton] at hq
      simp [hq]
  | cons a ys ih =>
      intro q hq
      simp only [List.foldr_cons]
      rcases List.mem_cons.mp hq with rfl | h
      · exact le_trans (ih q q (List.mem_cons_self _ _)) (le_max_right _ _)
      · rcases List.mem_cons.mp h with rfl | h2
        · exact le_max_left _ _
        · exact le_trans (ih x q (List.mem_cons_of_mem _ h2)) (le_max_right _ _)

/-! ### Helper lemmas about the correlation matrix -/

lemma pairs_swap (t : List Row) (f g : Fld) :
    pairs t g f = (pairs t f g).map Prod.swap := by
  induction t with
  | nil => rfl
  | cons r rest ih =>
      simp only [pairs, List.filterMap_cons] at ih ⊢
      cases hf : fval f r <;> cases hg : fval g r <;> simp [hf, hg, ih]

lemma map_fst_swap (l : List (ℚ × ℚ)) :
    (l.map Prod.swap).map Prod.fst = l.map Prod.snd := by
  simp [List.map_map, Function.comp]

lemma map_snd_swap (l : List (ℚ × ℚ)) :
    (l.map Prod.swap).map Prod.snd = l.map Prod.fst := by
  simp [List.map_map, Function.comp]

lemma covN_swap (l : List (ℚ × ℚ)) : covN (l.map Prod.swap) = covN l := by
  simp only [covN, List.map_map, List.length_map]
  have h1 : ((fun p : ℚ × ℚ => p.1 * p.2) ∘ Prod.swap) = fun p : ℚ × ℚ => p.1 * p.2 := by
    funext p
    simp [Function.comp, mul_comm]
  have h2 : (Prod.fst ∘ Prod.swap : ℚ × ℚ → ℚ) = Prod.snd := by
    funext p
    simp
  have h3 : (Prod.snd ∘ Prod.swap : ℚ × ℚ → ℚ) = Prod.fst := by
    funext p
    simp
  rw [h1, h2, h3]
  ring

lemma pairs_diag (t : List Row) (f : Fld) :
    pairs t f f = (t.filterMap (fval f)).map (fun x => (x, x)) := by
  induction t with
  | nil => rfl
  | cons r rest ih =>
      simp only [pairs, List.filterMap_cons] at ih ⊢
      cases hf : fval f r <;> simp [hf, ih]

lemma sum_mul_bound (a : ℚ) (xs : List ℚ) :
    2 * a * xs.sum ≤ (xs.length : ℚ) * (a * a) + (xs.map (fun x => x * x)).sum := by
  induction xs with
  | nil => simp
  | cons b ys ih =>
      simp only [List.sum_cons, List.length_cons, List.map_cons]
      push_cast
      nlinarith [two_mul_le_add_sq a b, ih]

lemma varQ_nonneg (xs : List ℚ) : 0 ≤ varQ xs := by
  induction xs with
  | nil => simp [varQ]
  | cons a ys ih =>
      have hb := sum_mul_bound a ys
      simp only [varQ, List.sum_cons, List.length_cons, List.map_cons] at ih ⊢
      push_cast at ih hb ⊢
      nlinarith [hb, ih]

lemma pairs_length_le (t : List Row) (f g : Fld) :
    (pairs t f g).length ≤ t.length := by
  simp only [pairs]
  exact List.length_filterMap_le _ _

/-! ### Claim theorems -/

/-- C1, counterexample: on the two raw rows of Scenario A, `load_and_clean`
does not return a one-row table — no strict row-rejection happens, so the
claimed output shape is false on the code. -/
theorem c1_strict_drop_false : ¬ (load_and_clean scenarioA).length = 1 := by
  with_unfolding_all decide

/-- C1, amended: `load_and_clean` on Scenario A keeps both rows in order;
the first has rating 4.1, cost 800 and votes 120, while the "NEW" row is
kept with an absent rating, votes 10 and cost 200 (lenient policy). -/
theorem c1_scenarioA_lenient :
    (load_and_clean scenarioA).length = 2
    ∧ (load_and_clean scenarioA).map (fun r => r.rate) = [some (41/10), none]
    ∧ (load_and_clean scenarioA).map (fun r => r.cost_for_two) = [some 800, some 200]
    ∧ (load_and_clean scenarioA).map (fun r => r.votes) = [120, 10] := by
  with_unfolding_all decide

/-- C2, counterexample: a normalized one-row table whose single row has an
absent rating is not returned unchanged by the all-'All', full-observed-range
spec — the unconditional rating-range predicate drops the row. -/
theorem c2_fullSpec_not_identity :
    applyFilter (load_and_clean [rawNew]) (fullSpec (load_and_clean [rawNew])) = []
    ∧ load_and_clean [rawNew] ≠ [] := by
  with_unfolding_all decide

/-- C2, amended: when every row of the table has a present rating, applying
the spec with every selectbox at 'All' and the slider spanning the observed
min/max returns the table unchanged, same rows in the same order. -/
theorem c2_fullSpec_identity_of_present (t : List Row)
    (h : ∀ r ∈ t, (r.rate).isSome = true) :
    applyFilter t (fullSpec t) = t := by
  rw [applyFilter_eq_filter]
  refine List.filter_eq_self.mpr ?_
  intro r hr
  obtain ⟨q, hq⟩ := Option.isSome_iff_exists.mp (h r hr)
  have hmem : q ∈ presentRates t := by
    simp only [presentRates]
    exact List.mem_filterMap.mpr ⟨r, hr, hq⟩
  have hlo : obsMinRate t ≤ q := by
    rcases hp : presentRates t with _ | ⟨x, xs⟩
    · rw [hp] at hmem
      cases hmem
    · rw [hp] at hmem
      simp only [obsMinRate, hp]
      exact foldr_min_le x xs q hmem
  have hhi : q ≤ obsMaxRate t := by
    rcases hp : presentRates t with _ | ⟨x, xs⟩
    · rw [hp] at hmem
      cases hmem
    · rw [hp] at hmem
      simp only [obsMaxRate, hp]
      exact le_foldr_max x xs q hmem
  simp [specPred, fullSpec, ratePassB, hq, hlo, hhi]

/-- Witness for C2 amended at a concrete table with all ratings present. -/
theorem c2_fullSpec_identity_witness :
    applyFilter tPair (fullSpec tPair) = tPair :=
  c2_fullSpec_identity_of_present tPair (by with_unfolding_all decide)

/-- C3, counterexample: the raw rating text "9.9" normalizes to the rating
value 9.9, which lies outside [0, 5] — the code never clamps or rejects
out-of-range parsed ratings. -/
theorem c3_rating_above_five :
    (load_and_clean [rawHighRate]).map (fun r => r.rate) = [some (99/10)]
    ∧ ¬ ((99 : ℚ)/10 ≤ 5) := by
  with_unfolding_all decide

/-- C3, amended: the sentinel rating texts "NEW", "-", empty and "nan"
normalize to an absent rating (never a value, never an exception — the
cleaning function is total), and every normalized rating is exactly
`cleanRate` of the raw text, with no range enforcement. -/
theorem c3_rating_parse_policy :
    cleanRate "NEW" = none ∧ cleanRate "-" = none ∧ cleanRate "" = none
    ∧ cleanRate "nan" = none
    ∧ (∀ rows (r : Row), r ∈ load_and_clean rows →
        ∃ raw ∈ rows, r.rate = cleanRate raw.rate) := by
  refine ⟨by with_unfolding_all decide, by with_unfolding_all decide,
    by with_unfolding_all decide, by with_unfolding_all decide, ?_⟩
  intro rows r hr
  simp only [load_and_clean] at hr
  obtain ⟨raw, hraw, rfl⟩ := List.mem_map.mp hr
  exact ⟨raw, hraw, rfl⟩

/-- Witness for C3 amended at the Scenario-A "NEW" row. -/
theorem c3_rating_parse_policy_witness :
    ∃ raw ∈ [rawNew], (cleanRow rawNew).rate = cleanRate raw.rate :=
  c3_rating_parse_policy.2.2.2.2 [rawNew] (cleanRow rawNew) (by with_unfolding_all decide)

/-- C4, counterexample: the cell "maybe" survives normalization verbatim
and the upper-case "YES" is not case-folded to "Yes" — both are third
values outside {"Yes", "No"}. -/
theorem c4_yesno_third_value :
    (load_and_clean [rawMaybe]).map (fun r => r.online_order) = ["maybe"]
    ∧ (load_and_clean [rawMaybe]).map (fun r => r.book_table) = ["YES"]
    ∧ ("maybe" ≠ "Yes" ∧ "maybe" ≠ "No") ∧ ("YES" ≠ "Yes" ∧ "YES" ≠ "No") := by
  with_unfolding_all decide

/-- C4, amended: Yes/No normalization strips whitespace and then maps the
exact aliases yes/no/0/1 (plus the identities); any other value — including
case variants such as "YES" — is preserved verbatim, so the two flag
columns are not confined to {"Yes", "No"}. -/
theorem c4_yesno_alias_table :
    (∀ s, cleanYesNo s = "Yes" ∨ cleanYesNo s = "No"
        ∨ cleanYesNo s = (⟨trimChars s.data⟩ : String))
    ∧ (∀ rows (r : Row), r ∈ load_and_clean rows →
        (r.online_order = "Yes" ∨ r.online_order = "No"
          ∨ ∃ raw ∈ rows, r.online_order = (⟨trimChars raw.online_order.data⟩ : String))
        ∧ (r.book_table = "Yes" ∨ r.book_table = "No"
          ∨ ∃ raw ∈ rows, r.book_table = (⟨trimChars raw.book_table.data⟩ : String)))
    ∧ cleanYesNo " yes " = "Yes" ∧ cleanYesNo "no" = "No" ∧ cleanYesNo "1" = "Yes"
    ∧ cleanYesNo "0" = "No" ∧ cleanYesNo "YES" = "YES" := by
  have hmain : ∀ s, cleanYesNo s = "Yes" ∨ cleanYesNo s = "No"
      ∨ cleanYesNo s = (⟨trimChars s.data⟩ : String) := by
    intro s
    simp only [cleanYesNo]
    split
    · exact Or.inl rfl
    · split
      · exact Or.inr (Or.inl rfl)
      · split
        · exact Or.inr (Or.inl rfl)
        · split
          · exact Or.inl rfl
          · exact Or.inr (Or.inr rfl)
  refine ⟨hmain, ?_, by with_unfolding_all decide, by with_unfolding_all decide,
    by with_unfolding_all decide, by with_unfolding_all decide, by with_unfolding_all decide⟩
  intro rows r hr
  simp only [load_and_clean] at hr
  obtain ⟨raw, hraw, rfl⟩ := List.mem_map.mp hr
  constructor
  · rcases hmain raw.online_order with h | h | h
    · exact Or.inl h
    · exact Or.inr (Or.inl h)
    · exact Or.inr (Or.inr ⟨raw, hraw, h⟩)
  · rcases hmain raw.book_table with h | h | h
    · exact Or.inl h
    · exact Or.inr (Or.inl h)
    · exact Or.inr (Or.inr ⟨raw, hraw, h⟩)

/-- Witness for C4 amended at the "maybe"/"YES" row. -/
theorem c4_yesno_alias_table_witness :
    ((cleanRow rawMaybe).online_order = "Yes" ∨ (cleanRow rawMaybe).online_order = "No"
      ∨ ∃ raw ∈ [rawMaybe],
          (cleanRow rawMaybe).online_order = (⟨trimChars raw.online_order.data⟩ : String))
    ∧ ((cleanRow rawMaybe).book_table = "Yes" ∨ (cleanRow rawMaybe).book_table = "No"
      ∨ ∃ raw ∈ [rawMaybe],
          (cleanRow rawMaybe).book_table = (⟨trimChars raw.book_table.data⟩ : String)) :=
  c4_yesno_alias_table.2.1 [rawMaybe] (cleanRow rawMaybe) (by with_unfolding_all decide)

/-- C5, counterexample: on the table `tBoth` with the rating range [0, 3.5],
the filtered view contains no both-flags row, yet the script's displayed
count — computed from `data` at source line 209, not from `df_filtered` —
is 1.  The count is therefore not computed over the filtered view. -/
theorem c5_bothCount_not_on_view :
    bothCount tBoth = 1 ∧ bothCount (applyFilter tBoth specLow) = 0 := by
  with_unfolding_all decide

/-- C5, amended: the boolean-combination count is computed over the full
normalized table; for every table the both-count plus the complement count
equals the row count, and the four-row sample with exactly one both-"Yes"
row yields the pair (1, 3). -/
theorem c5_bothCount_complement :
    (∀ t : List Row, bothCount t + otherCount t = t.length)
    ∧ bothCount sample4 = 1 ∧ otherCount sample4 = 3 := by
  refine ⟨fun t => ?_, by with_unfolding_all decide, by with_unfolding_all decide⟩
  simpa [bothCount, otherCount, both_df] using length_filter_split bothPred t

/-- C6: the Pearson matrix over {rate, votes, cost_for_two} is symmetric;
a view with at most one row gives an undefined (`none`) cell everywhere
(in particular every off-diagonal cell); zero variance in a column gives an
undefined cell, an explicit marker distinct from any numeric value; and
every defined diagonal cell represents exactly the value 1.0. -/
theorem c6_corr_matrix_props (t : List Row) (f g : Fld) :
    corrCell t g f = corrCell t f g
    ∧ (t.length ≤ 1 → corrCell t f g = none)
    ∧ (varQ ((pairs t f g).map Prod.fst) = 0 → corrCell t f g = none)
    ∧ (∀ c, corrCell t f f = some c → c.repOne) := by
  refine ⟨?_, ?_, ?_, ?_⟩
  · simp only [corrCell]
    rw [pairs_swap t f g, map_fst_swap, map_snd_swap, List.length_map, covN_swap]
    exact if_congr (by tauto) rfl (by rw [mul_comm])
  · intro h
    have hl : (pairs t f g).length < 2 := by
      have := pairs_length_le t f g
      omega
    simp only [corrCell]
    rw [if_pos (Or.inl hl)]
  · intro hv
    simp only [corrCell]
    rw [if_pos (Or.inr (Or.inl hv))]
  · intro c hc
    simp only [corrCell] at hc
    split at hc
    · exact Option.noConfusion hc
    · rename_i hcond
      push_neg at hcond
      obtain ⟨hlen, hvx, hvy⟩ := hcond
      have hceq : c = ⟨covN (pairs t f f),
          varQ ((pairs t f f).map Prod.fst) * varQ ((pairs t f f).map Prod.snd)⟩ :=
        (Option.some_inj.mp hc).symm
      subst hceq
      have hd := pairs_diag t f
      have e1 : ((fun p : ℚ × ℚ => p.1 * p.2) ∘ fun x : ℚ => (x, x)) = fun x : ℚ => x * x := rfl
      have e2 : (Prod.fst ∘ fun x : ℚ => (x, x)) = id := rfl
      have e3 : (Prod.snd ∘ fun x : ℚ => (x, x)) = id := rfl
      have hfst : (pairs t f f).map Prod.fst = t.filterMap (fval f) := by
        rw [hd, List.map_map, e2, List.map_id]
      have hsnd : (pairs t f f).map Prod.snd = t.filterMap (fval f) := by
        rw [hd, List.map_map, e3, List.map_id]
      have hcov : covN (pairs t f f) = varQ (t.filterMap (fval f)) := by
        rw [hd]
        simp only [covN, varQ, List.map_map, List.length_map, e1, e2, e3, List.map_id]
      rw [hfst] at hvx
      constructor
      · simp only [hcov]
        exact lt_of_le_of_ne (varQ_nonneg _) (Ne.symm hvx)
      · simp only [hcov, hfst, hsnd]

/-- Witness for C6 at a one-row view (undefined cell, Scenario D) and at a
two-row view with nonzero rating variance (defined diagonal representing
1.0). -/
theorem c6_corr_matrix_props_witness :
    corrCell tOne Fld.rating Fld.votes = none
    ∧ CorrCell.repOne ⟨1, 1⟩ := by
  constructor
  · exact (c6_corr_matrix_props tOne Fld.rating Fld.votes).2.1 (by with_unfolding_all decide)
  · exact (c6_corr_matrix_props tPair Fld.rating Fld.rating).2.2.2 ⟨1, 1⟩
      (by with_unfolding_all decide)

/-- C8: applying the same FilterSpec twice gives the same table as applying
it once, same rows in the same order. -/
theorem c8_applyFilter_idempotent (t : List Row) (s : FilterSpec) :
    applyFilter (applyFilter t s) s = applyFilter t s := by
  simp only [applyFilter_eq_filter]
  exact filter_idem _ _

/-- C9: `load_and_clean` never drops a row — the output has exactly one row
per raw input row, positionally (hence in the original order); an
unparsable votes text becomes 0, and an unparsable rating or cost text
becomes absent rather than excluding the row. -/
theorem c9_no_row_dropped (rows : List RawRow) :
    (load_and_clean rows).length = rows.length
    ∧ (∀ i : Nat, (load_and_clean rows)[i]? = (rows[i]?).map cleanRow)
    ∧ (∀ s, parseFloatQ s = none → cleanVotes s = 0)
    ∧ (∀ s, parseFloatQ (⟨removeSlash5 s.data⟩ : String) = none → cleanRate s = none)
    ∧ (∀ s, firstDigitRun ((s.data).filter (fun c => c ≠ ',')) = none →
        cleanCost s = none) := by
  refine ⟨List.length_map _ _, fun i => ?_, fun s hs => ?_, fun s hs => ?_, fun s hs => ?_⟩
  · simp [load_and_clean, List.getElem?_map]
  · simp [cleanVotes, hs]
  · simp only [cleanRate]
    split
    · rfl
    · exact hs
  · simp only [ne_eq, decide_not] at hs
    simp [cleanCost, hs]

/-- Witness for C9 at Scenario A and the unparsable text "abc". -/
theorem c9_no_row_dropped_witness :
    (load_and_clean scenarioA)[1]? = (scenarioA[1]?).map cleanRow
    ∧ cleanVotes "abc" = 0 ∧ cleanRate "abc" = none ∧ cleanCost "abc" = none := by
  refine ⟨(c9_no_row_dropped scenarioA).2.1 1, ?_, ?_, ?_⟩
  · exact (c9_no_row_dropped scenarioA).2.2.1 "abc" (by with_unfolding_all decide)
  · exact (c9_no_row_dropped scenarioA).2.2.2.1 "abc" (by with_unfolding_all decide)
  · exact (c9_no_row_dropped scenarioA).2.2.2.2 "abc" (by with_unfolding_all decide)

/-- C10: every row of any filtered view has a present rating lying within
the selected rating range — the rating-range predicate is applied
unconditionally and a row with an absent rating fails it. -/
theorem c10_filtered_rating_present (t : List Row) (s : FilterSpec) (r : Row)
    (hr : r ∈ applyFilter t s) :
    ∃ q, r.rate = some q ∧ s.lo ≤ q ∧ q ≤ s.hi := by
  rw [applyFilter_eq_filter] at hr
  have hp := (List.mem_filter.mp hr).2
  simp only [specPred, Bool.and_eq_true] at hp
  obtain ⟨-, hrate⟩ := hp
  cases hq : r.rate with
  | none => simp [ratePassB, hq] at hrate
  | some q =>
      simp only [ratePassB, hq, Bool.and_eq_true, decide_eq_true_eq] at hrate
      exact ⟨q, rfl, hrate.1, hrate.2⟩

/-- Witness for C10 at a concrete filtered view. -/
theorem c10_filtered_rating_present_witness :
    ∃ q, rowP.rate = some q ∧ specFull05.lo ≤ q ∧ q ≤ specFull05.hi :=
  c10_filtered_rating_present tPair specFull05 rowP (by with_unfolding_all decide)

end Zomato
